import Mathlib

/-!
Verification of the PCM-to-WAV encoder (`writeWav` in the audio utility
module) of the media-workbench repository.

The encoder is embedded shallowly: JavaScript numbers become rationals
(every operation the encoder performs on its float inputs — clamping,
adding 0.5, multiplying by 32767/32768, truncating via `| 0` — is exact
on the sample values involved), the `ArrayBuffer`/`DataView` pair becomes
a list of byte values together with a write cursor, and the returned
`Blob` becomes a list of bytes tagged with a MIME-type string.
-/

namespace Paiyou

/-- Truncation toward zero of a rational, as performed by JavaScript's
`ToInt32` conversion before its 2^32 wrap (the behaviour of `x | 0`). -/
def truncTowardZero (x : ℚ) : ℤ :=
  if x < 0 then ⌈x⌉ else ⌊x⌋

/-- The 2^32 signed wrap of JavaScript's `ToInt32` (`x | 0`). -/
def toInt32 (t : ℤ) : ℤ :=
  (t + 2 ^ 31) % 2 ^ 32 - 2 ^ 31

/-- Line 74 of the source: `Math.max(-1, Math.min(1, s))`. -/
def clamp (s : ℚ) : ℚ :=
  max (-1) (min 1 s)

/-- Lines 74–75 of the source: clamp the sample, scale it by 32768 when
`0.5 + sample < 0` and by 32767 otherwise, and apply `| 0`. -/
def encodeSample (s : ℚ) : ℤ :=
  let sample := clamp s
  toInt32 (truncTowardZero (if (1 / 2 : ℚ) + sample < 0 then sample * 32768 else sample * 32767))

/-- The two little-endian bytes stored by `DataView.setUint16`. -/
def le16 (v : ℕ) : List ℕ :=
  [v % 256, v / 256 % 256]

/-- The four little-endian bytes stored by `DataView.setUint32`. -/
def le32 (v : ℕ) : List ℕ :=
  [v % 256, v / 256 % 256, v / 2 ^ 16 % 256, v / 2 ^ 24 % 256]

/-- The two little-endian bytes stored by `DataView.setInt16`. -/
def int16LE (v : ℤ) : List ℕ :=
  le16 (v % 65536).toNat

/-- Store a run of bytes at consecutive positions of a byte buffer
(out-of-range positions leave the buffer unchanged, as `List.set` does). -/
def writeBytesAt : List ℕ → ℕ → List ℕ → List ℕ
  | buf, _, [] => buf
  | buf, i, b :: bs => writeBytesAt (buf.set i b) (i + 1) bs

/-- The `ArrayBuffer` + cursor pair the source's helper closures
`setUint16`/`setUint32` mutate. -/
structure Writer where
  buf : List ℕ
  pos : ℕ

/-- Lines 84–87 of the source: write a 16-bit little-endian value at the
cursor and advance the cursor by 2. -/
def Writer.setUint16 (w : Writer) (data : ℕ) : Writer :=
  ⟨writeBytesAt w.buf w.pos (le16 data), w.pos + 2⟩

/-- Lines 89–92 of the source: write a 32-bit little-endian value at the
cursor and advance the cursor by 4. -/
def Writer.setUint32 (w : Writer) (data : ℕ) : Writer :=
  ⟨writeBytesAt w.buf w.pos (le32 data), w.pos + 4⟩

/-- Line 76 of the source: `view.setInt16(44 + offset, sample, true)`. -/
def setInt16At (buf : List ℕ) (i : ℕ) (v : ℤ) : List ℕ :=
  writeBytesAt buf i (int16LE v)

/-- The Web-Audio `AudioBuffer` the encoder consumes: sample rate,
channel count, frame count (`length`), and the per-channel sample data
returned by `getChannelData`. -/
structure AudioBuffer where
  sampleRate : ℕ
  numberOfChannels : ℕ
  length : ℕ
  channelData : List (List ℚ)

/-- The Web-Audio call `buffer.getChannelData(i)`. -/
def AudioBuffer.getChannelData (b : AudioBuffer) (i : ℕ) : List ℚ :=
  b.channelData.getD i []

/-- Well-formedness of the decoded buffer (the spec's §3 invariant):
one sample array per channel, each of exactly `length` frames. -/
def AudioBuffer.WellFormed (b : AudioBuffer) : Prop :=
  b.channelData.length = b.numberOfChannels ∧ ∀ ch ∈ b.channelData, ch.length = b.length

/-- The returned `Blob`: byte contents plus MIME type. -/
structure WavBlob where
  bytes : List ℕ
  mimeType : String

/-- Lines 73–78 of the source: the inner `for` loop over channels of one
iteration of the data loop.  `pos` is the loop variable of the outer
`while`; each channel's sample at `pos` is encoded and stored at byte
position `44 + offset`, with `offset` advancing by 2. -/
def writeFrame : List (List ℚ) → ℕ → List ℕ → ℕ → List ℕ × ℕ
  | [], _, buf, offset => (buf, offset)
  | ch :: rest, pos, buf, offset =>
      writeFrame rest pos (setInt16At buf (44 + offset) (encodeSample (ch.getD pos 0))) (offset + 2)

/-- Lines 72–80 of the source: `while (pos < buffer.length) { … pos++ }`.
`len` is `buffer.length`; `pos` enters with whatever value the header
writing left in it. -/
def writeData (channels : List (List ℚ)) (len : ℕ) (pos : ℕ) (buf : List ℕ) (offset : ℕ) :
    List ℕ :=
  if pos < len then
    let r := writeFrame channels pos buf offset
    writeData channels len (pos + 1) r.1 r.2
  else buf
termination_by len - pos

/-- Lines 40–93 of the source: the whole `writeWav` function.  The
sequence of `setUint32`/`setUint16` calls, their arguments, and the fact
that the data loop starts with `pos` equal to the cursor value 44 left by
the header (and `offset = 0`) are all taken verbatim from the source. -/
def writeWav (buffer : AudioBuffer) : WavBlob :=
  let numOfChan := buffer.numberOfChannels
  let length := buffer.length * numOfChan * 2 + 44
  let w0 : Writer := ⟨List.replicate length 0, 0⟩
  let w1 := w0.setUint32 0x46464952
  let w2 := w1.setUint32 (length - 8)
  let w3 := w2.setUint32 0x45564157
  let w4 := w3.setUint32 0x20746d66
  let w5 := w4.setUint32 16
  let w6 := w5.setUint16 1
  let w7 := w6.setUint16 numOfChan
  let w8 := w7.setUint32 buffer.sampleRate
  let w9 := w8.setUint32 (buffer.sampleRate * 2 * numOfChan)
  let w10 := w9.setUint16 (numOfChan * 2)
  let w11 := w10.setUint16 16
  let w12 := w11.setUint32 0x61746164
  let w13 := w12.setUint32 (length - w12.pos - 4)
  let channels := (List.range numOfChan).map buffer.getChannelData
  let final := writeData channels buffer.length w13.pos w13.buf 0
  ⟨final, "audio/wav"⟩

/-- The 44 header bytes the `setUint32`/`setUint16` chain of lines 52–66
stores (arguments exactly as in the source; `length` is the allocated
total from line 42, and `length - 44` is the value of `length - pos - 4`
with the cursor at 40). -/
def headerBytes (b : AudioBuffer) : List ℕ :=
  let numOfChan := b.numberOfChannels
  let length := b.length * numOfChan * 2 + 44
  le32 0x46464952 ++ le32 (length - 8) ++ le32 0x45564157 ++
    le32 0x20746d66 ++ le32 16 ++ le16 1 ++ le16 numOfChan ++
    le32 b.sampleRate ++ le32 (b.sampleRate * 2 * numOfChan) ++
    le16 (numOfChan * 2) ++ le16 16 ++ le32 0x61746164 ++ le32 (length - 44)

/-- The channel list built by the loop at lines 69–70. -/
def channelsOf (b : AudioBuffer) : List (List ℚ) :=
  (List.range b.numberOfChannels).map b.getChannelData

/-- The bytes one iteration of the outer data loop stores: the encoded
sample of every channel at frame index `pos`, in channel order, two
little-endian bytes each. -/
def frameBytes (channels : List (List ℚ)) (pos : ℕ) : List ℕ :=
  channels.flatMap fun ch => int16LE (encodeSample (ch.getD pos 0))

/-- The bytes the data loop stores altogether when it enters with frame
index `pos`: the frames `pos, pos+1, …, len-1` in ascending order. -/
def dataBytes (channels : List (List ℚ)) (len pos : ℕ) : List ℕ :=
  (List.range' pos (len - pos)).flatMap (frameBytes channels)

/-- Read an unsigned 16-bit little-endian value from a byte list. -/
def readU16 (bytes : List ℕ) (off : ℕ) : ℕ :=
  bytes.getD off 0 + 256 * bytes.getD (off + 1) 0

/-- Read an unsigned 32-bit little-endian value from a byte list. -/
def readU32 (bytes : List ℕ) (off : ℕ) : ℕ :=
  bytes.getD off 0 + 256 * bytes.getD (off + 1) 0 +
    65536 * bytes.getD (off + 2) 0 + 16777216 * bytes.getD (off + 3) 0

theorem length_writeBytesAt (bs : List ℕ) : ∀ (buf : List ℕ) (i : ℕ),
    (writeBytesAt buf i bs).length = buf.length := by
  induction bs with
  | nil => intro buf i; rfl
  | cons b bs ih => intro buf i; rw [writeBytesAt, ih, List.length_set]

theorem writeBytesAt_append (a b : List ℕ) : ∀ (buf : List ℕ) (i : ℕ),
    writeBytesAt buf i (a ++ b) = writeBytesAt (writeBytesAt buf i a) (i + a.length) b := by
  induction a with
  | nil => intro buf i; simp [writeBytesAt]
  | cons x a ih =>
      intro buf i
      rw [List.cons_append, writeBytesAt, writeBytesAt, ih]
      congr 1
      simp [Nat.add_assoc, Nat.add_comm 1 a.length]

theorem writeBytesAt_eq (bs : List ℕ) : ∀ (buf : List ℕ) (i : ℕ),
    i + bs.length ≤ buf.length →
    writeBytesAt buf i bs = buf.take i ++ bs ++ buf.drop (i + bs.length) := by
  induction bs with
  | nil => intro buf i _; simp [writeBytesAt]
  | cons b bs ih =>
      intro buf i h
      have hbs : (b :: bs).length = bs.length + 1 := rfl
      rw [hbs] at h
      have hi : i < buf.length := by omega
      rw [writeBytesAt, ih (buf.set i b) (i + 1) (by rw [List.length_set]; omega)]
      have e1 : (buf.set i b).take (i + 1) = buf.take i ++ [b] := by
        rw [List.set_take,
          List.set_eq_take_cons_drop b (l := buf.take (i + 1))
            (by rw [List.length_take]; omega),
          List.take_take, Nat.min_eq_left (Nat.le_succ i),
          List.drop_eq_nil_of_le (by rw [List.length_take]; omega)]
      have e2 : (buf.set i b).drop (i + 1 + bs.length) = buf.drop (i + (bs.length + 1)) := by
        rw [List.drop_set, if_pos (by omega)]
        congr 1
        omega
      rw [e1, e2]
      simp [List.length_cons, List.append_assoc]

theorem length_headerBytes (b : AudioBuffer) : (headerBytes b).length = 44 := by
  simp [headerBytes, le32, le16]

theorem length_int16LE (v : ℤ) : (int16LE v).length = 2 := rfl

theorem length_frameBytes (channels : List (List ℚ)) (pos : ℕ) :
    (frameBytes channels pos).length = 2 * channels.length := by
  induction channels with
  | nil => rfl
  | cons ch rest ih =>
      rw [frameBytes, List.flatMap_cons, List.length_append, length_int16LE]
      rw [frameBytes] at ih
      rw [ih, List.length_cons]
      ring

theorem writeFrame_eq (channels : List (List ℚ)) (pos : ℕ) : ∀ (buf : List ℕ) (offset : ℕ),
    writeFrame channels pos buf offset =
      (writeBytesAt buf (44 + offset) (frameBytes channels pos), offset + 2 * channels.length) := by
  induction channels with
  | nil => intro buf offset; simp [writeFrame, frameBytes, writeBytesAt]
  | cons ch rest ih =>
      intro buf offset
      rw [writeFrame, ih]
      simp only [frameBytes, List.flatMap_cons, writeBytesAt_append, length_int16LE,
        List.length_cons, Prod.mk.injEq]
      have h3 : 44 + (offset + 2) = 44 + offset + 2 := by omega
      rw [h3, setInt16At]
      exact ⟨rfl, by ring⟩

theorem writeData_eq (channels : List (List ℚ)) (len : ℕ) :
    ∀ (n pos : ℕ), len - pos = n → ∀ (buf : List ℕ) (offset : ℕ),
    writeData channels len pos buf offset =
      writeBytesAt buf (44 + offset) (dataBytes channels len pos) := by
  intro n
  induction n with
  | zero =>
      intro pos hn buf offset
      rw [writeData, dataBytes, hn, if_neg (by omega)]
      simp [writeBytesAt]
  | succ n ih =>
      intro pos hn buf offset
      have hlt : pos < len := by omega
      rw [writeData, if_pos hlt, writeFrame_eq, ih (pos + 1) (by omega)]
      have h2 : len - (pos + 1) = n := by omega
      rw [dataBytes, dataBytes, hn, h2, List.range'_succ, List.flatMap_cons,
        writeBytesAt_append, length_frameBytes]
      have h3 : 44 + (offset + 2 * channels.length) = 44 + offset + 2 * channels.length := by
        omega
      rw [h3]

theorem writeWav_bytes (b : AudioBuffer) :
    (writeWav b).bytes =
      writeBytesAt (List.replicate (b.length * b.numberOfChannels * 2 + 44) 0) 0
        (headerBytes b ++ dataBytes (channelsOf b) b.length 44) := by
  rw [writeBytesAt_append, length_headerBytes]
  simp only [writeWav, Writer.setUint32, Writer.setUint16, Nat.sub_sub, Nat.zero_add]
  rw [writeData_eq _ _ (b.length - 44) 44 rfl]
  simp only [headerBytes, channelsOf, le32, le16, List.cons_append, List.nil_append,
    writeBytesAt, Nat.add_zero]

theorem length_flatMap_frameBytes (channels : List (List ℚ)) : ∀ (n s : ℕ),
    ((List.range' s n).flatMap (frameBytes channels)).length = n * (2 * channels.length) := by
  intro n
  induction n with
  | zero => intro s; simp
  | succ n ih =>
      intro s
      rw [List.range'_succ, List.flatMap_cons, List.length_append, length_frameBytes, ih]
      ring

theorem length_dataBytes (channels : List (List ℚ)) (len pos : ℕ) :
    (dataBytes channels len pos).length = (len - pos) * (2 * channels.length) := by
  rw [dataBytes, length_flatMap_frameBytes]

theorem length_channelsOf (b : AudioBuffer) : (channelsOf b).length = b.numberOfChannels := by
  simp [channelsOf]

theorem length_writeWav_bytes (b : AudioBuffer) :
    (writeWav b).bytes.length = 44 + b.length * b.numberOfChannels * 2 := by
  rw [writeWav_bytes, length_writeBytesAt, List.length_replicate]
  omega

theorem writeWav_bytes_split (b : AudioBuffer) :
    (writeWav b).bytes =
      headerBytes b ++ dataBytes (channelsOf b) b.length 44 ++
        List.replicate
          (b.length * b.numberOfChannels * 2 -
            (b.length - 44) * (2 * b.numberOfChannels)) 0 := by
  have hle : 0 + (headerBytes b ++ dataBytes (channelsOf b) b.length 44).length ≤
      (List.replicate (b.length * b.numberOfChannels * 2 + 44) 0).length := by
    rw [List.length_append, length_headerBytes, length_dataBytes, length_channelsOf,
      List.length_replicate]
    have h1 : (b.length - 44) * (2 * b.numberOfChannels) ≤
        b.length * (2 * b.numberOfChannels) := Nat.mul_le_mul (Nat.sub_le _ _) (Nat.le_refl _)
    have h2 : b.length * (2 * b.numberOfChannels) = b.length * b.numberOfChannels * 2 := by ring
    omega
  rw [writeWav_bytes, writeBytesAt_eq _ _ _ hle]
  rw [List.take_zero, List.nil_append, List.drop_replicate]
  rw [List.length_append, length_headerBytes, length_dataBytes, length_channelsOf]
  congr 1
  congr 1
  omega

theorem neg_one_le_clamp (s : ℚ) : -1 ≤ clamp s := le_max_left _ _

theorem clamp_le_one (s : ℚ) : clamp s ≤ 1 :=
  max_le (by norm_num) (min_le_left _ _)

theorem clamp_of_one_le {s : ℚ} (h : 1 ≤ s) : clamp s = 1 := by
  rw [clamp, min_eq_left h, max_eq_right (by norm_num : (-1 : ℚ) ≤ 1)]

theorem clamp_of_le_neg_one {s : ℚ} (h : s ≤ -1) : clamp s = -1 := by
  rw [clamp, min_eq_right (by linarith), max_eq_left h]

theorem truncTowardZero_le {B : ℤ} {x : ℚ} (h : x ≤ (B : ℚ)) : truncTowardZero x ≤ B := by
  rw [truncTowardZero]
  split
  · calc ⌈x⌉ ≤ ⌈(B : ℚ)⌉ := Int.ceil_le_ceil h
      _ = B := Int.ceil_intCast B
  · calc ⌊x⌋ ≤ ⌊(B : ℚ)⌋ := Int.floor_le_floor h
      _ = B := Int.floor_intCast B

theorem le_truncTowardZero {A : ℤ} {x : ℚ} (h : (A : ℚ) ≤ x) : A ≤ truncTowardZero x := by
  rw [truncTowardZero]
  split
  · calc A = ⌈(A : ℚ)⌉ := (Int.ceil_intCast A).symm
      _ ≤ ⌈x⌉ := Int.ceil_le_ceil h
  · calc A = ⌊(A : ℚ)⌋ := (Int.floor_intCast A).symm
      _ ≤ ⌊x⌋ := Int.floor_le_floor h

theorem toInt32_eq_self {t : ℤ} (h1 : -2147483648 ≤ t) (h2 : t < 2147483648) :
    toInt32 t = t := by
  rw [toInt32]
  omega

/-- The `| 0` wrap in the sample conversion never fires: the scaled,
truncated value always lies inside the 32-bit signed range, so the encoded
sample is exactly the truncation of the scaled clamped sample. -/
theorem encodeSample_eq_trunc (s : ℚ) :
    encodeSample s =
      truncTowardZero
        (if (1 / 2 : ℚ) + clamp s < 0 then clamp s * 32768 else clamp s * 32767) := by
  have h1 := clamp_le_one s
  have h2 := neg_one_le_clamp s
  have hub : (if (1 / 2 : ℚ) + clamp s < 0 then clamp s * 32768 else clamp s * 32767)
      ≤ ((32767 : ℤ) : ℚ) := by
    split <;> push_cast <;> linarith
  have hlb : (((-32768 : ℤ) : ℚ))
      ≤ (if (1 / 2 : ℚ) + clamp s < 0 then clamp s * 32768 else clamp s * 32767) := by
    split <;> push_cast <;> linarith
  simp only [encodeSample]
  exact toInt32_eq_self (by have := le_truncTowardZero hlb; omega)
    (by have := truncTowardZero_le hub; omega)

theorem encodeSample_one : encodeSample 1 = 32767 := by
  rw [encodeSample_eq_trunc, clamp_of_one_le (le_refl 1)]
  norm_num [truncTowardZero]

theorem encodeSample_neg_one : encodeSample (-1) = -32768 := by
  rw [encodeSample_eq_trunc, clamp_of_le_neg_one (le_refl (-1))]
  norm_num [truncTowardZero, Int.ceil_eq_iff]

theorem encodeSample_zero : encodeSample 0 = 0 := by
  rw [encodeSample_eq_trunc]
  have hc : clamp 0 = 0 := by norm_num [clamp]
  rw [hc]
  norm_num [truncTowardZero]

theorem encodeSample_neg_half : encodeSample (-(1 / 2)) = -16383 := by
  rw [encodeSample_eq_trunc]
  have hc : clamp (-(1 / 2)) = -(1 / 2) := by
    rw [clamp, min_eq_right (by norm_num), max_eq_right (by norm_num)]
  rw [hc]
  rw [if_neg (by norm_num)]
  rw [truncTowardZero, if_pos (by norm_num)]
  rw [show (-(1 / 2) * 32767 : ℚ) = -(32767 / 2) by ring]
  norm_num [Int.ceil_eq_iff]

theorem encodeSample_seven_tenths : encodeSample (7 / 10) = 22936 := by
  rw [encodeSample_eq_trunc]
  have hc : clamp (7 / 10) = 7 / 10 := by
    rw [clamp, min_eq_right (by norm_num), max_eq_right (by norm_num)]
  rw [hc, if_neg (by norm_num), truncTowardZero, if_neg (by norm_num)]
  rw [show ((7 : ℚ) / 10 * 32767) = 229369 / 10 by ring]
  norm_num [Int.floor_eq_iff]

theorem encodeSample_neg_quarter : encodeSample (-(1 / 4)) = -8191 := by
  rw [encodeSample_eq_trunc]
  have hc : clamp (-(1 / 4)) = -(1 / 4) := by
    rw [clamp, min_eq_right (by norm_num), max_eq_right (by norm_num)]
  rw [hc, if_neg (by norm_num), truncTowardZero, if_pos (by norm_num)]
  rw [show (-(1 / 4) * 32767 : ℚ) = -(32767 / 4) by ring]
  norm_num [Int.ceil_eq_iff]

theorem writeWav_bytes_drop (b : AudioBuffer) :
    (writeWav b).bytes.drop 44 =
      dataBytes (channelsOf b) b.length 44 ++
        List.replicate
          (b.length * b.numberOfChannels * 2 -
            (b.length - 44) * (2 * b.numberOfChannels)) 0 := by
  rw [writeWav_bytes_split, List.append_assoc, List.drop_append_eq_append_drop,
    length_headerBytes, List.drop_eq_nil_of_le (by simp [length_headerBytes]),
    Nat.sub_self, List.drop_zero, List.nil_append]

theorem writeWav_getD_header (b : AudioBuffer) (n : ℕ) (h : n < 44) :
    (writeWav b).bytes.getD n 0 = (headerBytes b).getD n 0 := by
  rw [writeWav_bytes_split, List.append_assoc,
    List.getD_append _ _ _ _ (by rw [length_headerBytes]; omega)]

/-- The header layout of the spec's §4.1 table, stated by reading the
output bytes back: ASCII tag bytes at their fixed offsets and
little-endian numeric fields with the values the table prescribes. -/
def headerLayoutSpec (b : AudioBuffer) : Prop :=
  let bytes := (writeWav b).bytes
  let total := 44 + b.length * b.numberOfChannels * 2
  (bytes.getD 0 0 = 0x52 ∧ bytes.getD 1 0 = 0x49 ∧
    bytes.getD 2 0 = 0x46 ∧ bytes.getD 3 0 = 0x46) ∧
  readU32 bytes 4 = total - 8 ∧
  (bytes.getD 8 0 = 0x57 ∧ bytes.getD 9 0 = 0x41 ∧
    bytes.getD 10 0 = 0x56 ∧ bytes.getD 11 0 = 0x45) ∧
  (bytes.getD 12 0 = 0x66 ∧ bytes.getD 13 0 = 0x6d ∧
    bytes.getD 14 0 = 0x74 ∧ bytes.getD 15 0 = 0x20) ∧
  readU32 bytes 16 = 16 ∧
  readU16 bytes 20 = 1 ∧
  readU16 bytes 22 = b.numberOfChannels ∧
  readU32 bytes 24 = b.sampleRate ∧
  readU32 bytes 28 = b.sampleRate * b.numberOfChannels * 2 ∧
  readU16 bytes 32 = b.numberOfChannels * 2 ∧
  readU16 bytes 34 = 16 ∧
  (bytes.getD 36 0 = 0x64 ∧ bytes.getD 37 0 = 0x61 ∧
    bytes.getD 38 0 = 0x74 ∧ bytes.getD 39 0 = 0x61) ∧
  readU32 bytes 40 = total - 44

/-- A 2-channel, 2-frame buffer with channel 0 = `[0.0, 0.5]` and
channel 1 = `[-0.5, 0.0]` (the spec's interleaving example). -/
def exStereo2 : AudioBuffer :=
  ⟨8000, 2, 2, [[0, 1 / 2], [-(1 / 2), 0]]⟩

/-- A mono, 1-frame buffer holding the single sample `0.7`. -/
def exMono1 : AudioBuffer :=
  ⟨8000, 1, 1, [[7 / 10]]⟩

/-- A mono buffer with `frameCount = 0`. -/
def exMono0 : AudioBuffer :=
  ⟨44100, 1, 0, [[]]⟩

/-- A mono, 45-frame buffer whose samples are all `0.5`. -/
def exMono45 : AudioBuffer :=
  ⟨8000, 1, 45, [List.replicate 45 (1 / 2)]⟩

/-- A mono, 45-frame all-zero buffer. -/
def exZero45 : AudioBuffer :=
  ⟨8000, 1, 45, [List.replicate 45 0]⟩

set_option maxHeartbeats 1000000 in
theorem header_field_riff (b : AudioBuffer) :
    (writeWav b).bytes.getD 0 0 = 0x52 ∧
    (writeWav b).bytes.getD 1 0 = 0x49 ∧
    (writeWav b).bytes.getD 2 0 = 0x46 ∧
    (writeWav b).bytes.getD 3 0 = 0x46 := by
  have hdr := writeWav_getD_header b
  exact ⟨(hdr 0 (by omega)).trans rfl, (hdr 1 (by omega)).trans rfl, (hdr 2 (by omega)).trans rfl, (hdr 3 (by omega)).trans rfl⟩

set_option maxHeartbeats 1000000 in
theorem header_field_chunkSize (b : AudioBuffer)
    (htot : b.length * b.numberOfChannels * 2 + 44 < 4294967296) :
    readU32 (writeWav b).bytes 4 = 44 + b.length * b.numberOfChannels * 2 - 8 := by
  have hdr := writeWav_getD_header b
  have f0 : (writeWav b).bytes.getD 4 0 = (b.length * b.numberOfChannels * 2 + 44 - 8) % 256 :=
    (hdr 4 (by omega)).trans rfl
  have f1 : (writeWav b).bytes.getD 5 0 = (b.length * b.numberOfChannels * 2 + 44 - 8) / 256 % 256 :=
    (hdr 5 (by omega)).trans rfl
  have f2 : (writeWav b).bytes.getD 6 0 = (b.length * b.numberOfChannels * 2 + 44 - 8) / 2 ^ 16 % 256 :=
    (hdr 6 (by omega)).trans rfl
  have f3 : (writeWav b).bytes.getD 7 0 = (b.length * b.numberOfChannels * 2 + 44 - 8) / 2 ^ 24 % 256 :=
    (hdr 7 (by omega)).trans rfl
  rw [readU32, f0, f1, f2, f3]
  omega

set_option maxHeartbeats 1000000 in
theorem header_field_wave (b : AudioBuffer) :
    (writeWav b).bytes.getD 8 0 = 0x57 ∧
    (writeWav b).bytes.getD 9 0 = 0x41 ∧
    (writeWav b).bytes.getD 10 0 = 0x56 ∧
    (writeWav b).bytes.getD 11 0 = 0x45 := by
  have hdr := writeWav_getD_header b
  exact ⟨(hdr 8 (by omega)).trans rfl, (hdr 9 (by omega)).trans rfl, (hdr 10 (by omega)).trans rfl, (hdr 11 (by omega)).trans rfl⟩

set_option maxHeartbeats 1000000 in
theorem header_field_fmt (b : AudioBuffer) :
    (writeWav b).bytes.getD 12 0 = 0x66 ∧
    (writeWav b).bytes.getD 13 0 = 0x6d ∧
    (writeWav b).bytes.getD 14 0 = 0x74 ∧
    (writeWav b).bytes.getD 15 0 = 0x20 := by
  have hdr := writeWav_getD_header b
  exact ⟨(hdr 12 (by omega)).trans rfl, (hdr 13 (by omega)).trans rfl, (hdr 14 (by omega)).trans rfl, (hdr 15 (by omega)).trans rfl⟩

set_option maxHeartbeats 1000000 in
theorem header_field_subchunk1Size (b : AudioBuffer) :
    readU32 (writeWav b).bytes 16 = 16 := by
  have hdr := writeWav_getD_header b
  have f0 : (writeWav b).bytes.getD 16 0 = (16) % 256 :=
    (hdr 16 (by omega)).trans rfl
  have f1 : (writeWav b).bytes.getD 17 0 = (16) / 256 % 256 :=
    (hdr 17 (by omega)).trans rfl
  have f2 : (writeWav b).bytes.getD 18 0 = (16) / 2 ^ 16 % 256 :=
    (hdr 18 (by omega)).trans rfl
  have f3 : (writeWav b).bytes.getD 19 0 = (16) / 2 ^ 24 % 256 :=
    (hdr 19 (by omega)).trans rfl
  rw [readU32, f0, f1, f2, f3]
  omega

set_option maxHeartbeats 1000000 in
theorem header_field_audioFormat (b : AudioBuffer) :
    readU16 (writeWav b).bytes 20 = 1 := by
  have hdr := writeWav_getD_header b
  have f0 : (writeWav b).bytes.getD 20 0 = (1) % 256 :=
    (hdr 20 (by omega)).trans rfl
  have f1 : (writeWav b).bytes.getD 21 0 = (1) / 256 % 256 :=
    (hdr 21 (by omega)).trans rfl
  rw [readU16, f0, f1]

set_option maxHeartbeats 1000000 in
theorem header_field_numChannels (b : AudioBuffer)
    (hch : b.numberOfChannels * 2 < 65536) :
    readU16 (writeWav b).bytes 22 = b.numberOfChannels := by
  have hdr := writeWav_getD_header b
  have f0 : (writeWav b).bytes.getD 22 0 = (b.numberOfChannels) % 256 :=
    (hdr 22 (by omega)).trans rfl
  have f1 : (writeWav b).bytes.getD 23 0 = (b.numberOfChannels) / 256 % 256 :=
    (hdr 23 (by omega)).trans rfl
  rw [readU16, f0, f1]
  omega

set_option maxHeartbeats 1000000 in
theorem header_field_sampleRate (b : AudioBuffer)
    (hsr : b.sampleRate < 4294967296) :
    readU32 (writeWav b).bytes 24 = b.sampleRate := by
  have hdr := writeWav_getD_header b
  have f0 : (writeWav b).bytes.getD 24 0 = (b.sampleRate) % 256 :=
    (hdr 24 (by omega)).trans rfl
  have f1 : (writeWav b).bytes.getD 25 0 = (b.sampleRate) / 256 % 256 :=
    (hdr 25 (by omega)).trans rfl
  have f2 : (writeWav b).bytes.getD 26 0 = (b.sampleRate) / 2 ^ 16 % 256 :=
    (hdr 26 (by omega)).trans rfl
  have f3 : (writeWav b).bytes.getD 27 0 = (b.sampleRate) / 2 ^ 24 % 256 :=
    (hdr 27 (by omega)).trans rfl
  rw [readU32, f0, f1, f2, f3]
  omega

set_option maxHeartbeats 1000000 in
theorem header_field_byteRate (b : AudioBuffer)
    (hbr : b.sampleRate * 2 * b.numberOfChannels < 4294967296) :
    readU32 (writeWav b).bytes 28 = b.sampleRate * b.numberOfChannels * 2 := by
  have hdr := writeWav_getD_header b
  have f0 : (writeWav b).bytes.getD 28 0 = (b.sampleRate * 2 * b.numberOfChannels) % 256 :=
    (hdr 28 (by omega)).trans rfl
  have f1 : (writeWav b).bytes.getD 29 0 = (b.sampleRate * 2 * b.numberOfChannels) / 256 % 256 :=
    (hdr 29 (by omega)).trans rfl
  have f2 : (writeWav b).bytes.getD 30 0 = (b.sampleRate * 2 * b.numberOfChannels) / 2 ^ 16 % 256 :=
    (hdr 30 (by omega)).trans rfl
  have f3 : (writeWav b).bytes.getD 31 0 = (b.sampleRate * 2 * b.numberOfChannels) / 2 ^ 24 % 256 :=
    (hdr 31 (by omega)).trans rfl
  rw [readU32, f0, f1, f2, f3]
  have hcomm : b.sampleRate * 2 * b.numberOfChannels =
      b.sampleRate * b.numberOfChannels * 2 := by ring
  omega

set_option maxHeartbeats 1000000 in
theorem header_field_blockAlign (b : AudioBuffer)
    (hch : b.numberOfChannels * 2 < 65536) :
    readU16 (writeWav b).bytes 32 = b.numberOfChannels * 2 := by
  have hdr := writeWav_getD_header b
  have f0 : (writeWav b).bytes.getD 32 0 = (b.numberOfChannels * 2) % 256 :=
    (hdr 32 (by omega)).trans rfl
  have f1 : (writeWav b).bytes.getD 33 0 = (b.numberOfChannels * 2) / 256 % 256 :=
    (hdr 33 (by omega)).trans rfl
  rw [readU16, f0, f1]
  omega

set_option maxHeartbeats 1000000 in
theorem header_field_bitsPerSample (b : AudioBuffer) :
    readU16 (writeWav b).bytes 34 = 16 := by
  have hdr := writeWav_getD_header b
  have f0 : (writeWav b).bytes.getD 34 0 = (16) % 256 :=
    (hdr 34 (by omega)).trans rfl
  have f1 : (writeWav b).bytes.getD 35 0 = (16) / 256 % 256 :=
    (hdr 35 (by omega)).trans rfl
  rw [readU16, f0, f1]

set_option maxHeartbeats 1000000 in
theorem header_field_dataTag (b : AudioBuffer) :
    (writeWav b).bytes.getD 36 0 = 0x64 ∧
    (writeWav b).bytes.getD 37 0 = 0x61 ∧
    (writeWav b).bytes.getD 38 0 = 0x74 ∧
    (writeWav b).bytes.getD 39 0 = 0x61 := by
  have hdr := writeWav_getD_header b
  exact ⟨(hdr 36 (by omega)).trans rfl, (hdr 37 (by omega)).trans rfl, (hdr 38 (by omega)).trans rfl, (hdr 39 (by omega)).trans rfl⟩

set_option maxHeartbeats 1000000 in
theorem header_field_subchunk2Size (b : AudioBuffer)
    (htot : b.length * b.numberOfChannels * 2 + 44 < 4294967296) :
    readU32 (writeWav b).bytes 40 = 44 + b.length * b.numberOfChannels * 2 - 44 := by
  have hdr := writeWav_getD_header b
  have f0 : (writeWav b).bytes.getD 40 0 = (b.length * b.numberOfChannels * 2 + 44 - 44) % 256 :=
    (hdr 40 (by omega)).trans rfl
  have f1 : (writeWav b).bytes.getD 41 0 = (b.length * b.numberOfChannels * 2 + 44 - 44) / 256 % 256 :=
    (hdr 41 (by omega)).trans rfl
  have f2 : (writeWav b).bytes.getD 42 0 = (b.length * b.numberOfChannels * 2 + 44 - 44) / 2 ^ 16 % 256 :=
    (hdr 42 (by omega)).trans rfl
  have f3 : (writeWav b).bytes.getD 43 0 = (b.length * b.numberOfChannels * 2 + 44 - 44) / 2 ^ 24 % 256 :=
    (hdr 43 (by omega)).trans rfl
  rw [readU32, f0, f1, f2, f3]
  omega

theorem headerLayout_of_bounds (b : AudioBuffer)
    (hsr : b.sampleRate < 4294967296)
    (hbr : b.sampleRate * 2 * b.numberOfChannels < 4294967296)
    (hch : b.numberOfChannels * 2 < 65536)
    (htot : b.length * b.numberOfChannels * 2 + 44 < 4294967296) :
    headerLayoutSpec b := by
  simp only [headerLayoutSpec]
  exact ⟨header_field_riff b, header_field_chunkSize b htot, header_field_wave b,
    header_field_fmt b, header_field_subchunk1Size b, header_field_audioFormat b,
    header_field_numChannels b hch, header_field_sampleRate b hsr,
    header_field_byteRate b hbr, header_field_blockAlign b hch,
    header_field_bitsPerSample b, header_field_dataTag b,
    header_field_subchunk2Size b htot⟩

/-- C4: for every decoded buffer whose numeric fields fit their header
slots, the first 44 output bytes form the fixed RIFF/WAVE header with all
multi-byte integers little-endian and the field values of the §4.1 table
(ChunkSize `total - 8`, AudioFormat 1, NumChannels, SampleRate, ByteRate
`sampleRate * channelCount * 2`, BlockAlign `channelCount * 2`,
BitsPerSample 16, Subchunk2Size `total - 44`). -/
theorem writeWav_header_layout (b : AudioBuffer)
    (hsr : b.sampleRate < 4294967296)
    (hbr : b.sampleRate * 2 * b.numberOfChannels < 4294967296)
    (hch : b.numberOfChannels * 2 < 65536)
    (htot : b.length * b.numberOfChannels * 2 + 44 < 4294967296) :
    headerLayoutSpec b :=
  headerLayout_of_bounds b hsr hbr hch htot

/-- Witness for C4 at the concrete mono empty buffer. -/
theorem writeWav_header_layout_witness : headerLayoutSpec exMono0 :=
  writeWav_header_layout exMono0 (by decide) (by decide) (by decide) (by decide)

/-- C3: for every decoded buffer, the output blob has exactly
`44 + frameCount * channelCount * 2` bytes and MIME type `audio/wav`. -/
theorem writeWav_length_and_mime (b : AudioBuffer) :
    (writeWav b).bytes.length = 44 + b.length * b.numberOfChannels * 2 ∧
    (writeWav b).mimeType = "audio/wav" :=
  ⟨length_writeWav_bytes b, rfl⟩

theorem int16LE_zero : int16LE 0 = [0, 0] := rfl

/-- C2: the encoded value of a sample is the clamped sample scaled by
32768 when `0.5 + s' < 0` and by 32767 otherwise, truncated toward zero
(the `| 0` wrap never changes it); `1.0` encodes to `32767`, `-1.0` to
`-32768`, and out-of-range samples encode like the nearest bound. -/
theorem encodeSample_spec :
    (∀ s : ℚ, encodeSample s =
      truncTowardZero
        (if (1 / 2 : ℚ) + clamp s < 0 then clamp s * 32768 else clamp s * 32767)) ∧
    encodeSample 1 = 32767 ∧ encodeSample (-1) = -32768 ∧
    (∀ s : ℚ, 1 ≤ s → encodeSample s = encodeSample 1) ∧
    (∀ s : ℚ, s ≤ -1 → encodeSample s = encodeSample (-1)) := by
  refine ⟨encodeSample_eq_trunc, encodeSample_one, encodeSample_neg_one, ?_, ?_⟩
  · intro s hs
    rw [encodeSample_eq_trunc, encodeSample_eq_trunc, clamp_of_one_le hs,
      clamp_of_one_le (le_refl 1)]
  · intro s hs
    rw [encodeSample_eq_trunc, encodeSample_eq_trunc, clamp_of_le_neg_one hs,
      clamp_of_le_neg_one (le_refl (-1))]

/-- Witness for C2: the out-of-range samples 2 and -2 encode like the
bounds they clamp to. -/
theorem encodeSample_spec_witness :
    encodeSample 2 = encodeSample 1 ∧ encodeSample (-2) = encodeSample (-1) :=
  ⟨encodeSample_spec.2.2.2.1 2 (by norm_num), encodeSample_spec.2.2.2.2 (-2) (by norm_num)⟩

/-- Counterexample to C6 as stated: `-0.25` is a negative clamped sample,
yet it is scaled by 32767 (giving -8191), not by 32768 (which would give
-8192): the branch is not decided by the sign of the clamped sample. -/
theorem scale_branch_not_sign :
    clamp (-(1 / 4)) < 0 ∧
    encodeSample (-(1 / 4)) ≠ truncTowardZero (clamp (-(1 / 4)) * 32768) := by
  have hc : clamp (-(1 / 4)) = -(1 / 4) := by
    rw [clamp, min_eq_right (by norm_num), max_eq_right (by norm_num)]
  have he : ⌈(-8192 : ℚ)⌉ = -8192 := by
    rw [show ((-8192 : ℚ)) = ((-8192 : ℤ) : ℚ) by norm_num, Int.ceil_intCast]
  constructor
  · rw [hc]
    norm_num
  · rw [encodeSample_neg_quarter, hc,
      show (-(1 / 4) * 32768 : ℚ) = -8192 by ring,
      truncTowardZero, if_pos (by norm_num), he]
    norm_num

/-- C6 (amended): the branch between the two scale constants is decided
by comparing the clamped sample with `-0.5`: values below `-0.5` are
scaled by 32768 and values at or above `-0.5` (including all of
`[-0.5, 0)`) by 32767. -/
theorem scale_branch_threshold (s : ℚ) :
    encodeSample s =
      if clamp s < -(1 / 2) then truncTowardZero (clamp s * 32768)
      else truncTowardZero (clamp s * 32767) := by
  rw [encodeSample_eq_trunc]
  by_cases h : clamp s < -(1 / 2)
  · rw [if_pos h, if_pos (by linarith)]
  · rw [if_neg (by intro hx; exact h (by linarith)), if_neg h]

/-- C1 (evaluation of the code at the spec's interleaving example): for
the 2-channel buffer with channel 0 = `[0, 0.5]`, channel 1 = `[-0.5, 0]`
the entire data region is zero bytes, although the claim requires the
second data sample to be the (nonzero) encoding of `-0.5`. -/
theorem interleave_example_data_is_zero :
    (writeWav exStereo2).bytes.drop 44 = [0, 0, 0, 0, 0, 0, 0, 0] ∧
    int16LE (encodeSample (-(1 / 2))) ≠ [0, 0] := by
  constructor
  · rw [writeWav_bytes_drop]
    decide
  · rw [encodeSample_neg_half]
    decide

/-- C5 (evaluation of the code at a failing input): for a mono 1-frame
buffer with sample `0.7` the data region stays `[0, 0]` — zero data bytes
are written instead of the claimed `frameCount * channelCount * 2 = 2`. -/
theorem mono1_data_bytes_not_written :
    (writeWav exMono1).bytes.drop 44 = [0, 0] ∧
    int16LE (encodeSample (7 / 10)) ≠ [0, 0] := by
  constructor
  · rw [writeWav_bytes_drop]
    decide
  · rw [encodeSample_seven_tenths]
    decide

/-- C7: a buffer with `channelCount = 0` or `frameCount = 0` encodes
without failing to a header-only 44-byte WAV file, and for the concrete
mono `frameCount = 0` buffer the output is exactly 44 bytes with all
header fields of the §4.1 table (`channelCount = 1`,
`Subchunk2Size = 0`). -/
theorem empty_buffer_header_only :
    (∀ b : AudioBuffer, b.numberOfChannels = 0 ∨ b.length = 0 →
      (writeWav b).bytes = headerBytes b ∧ (writeWav b).bytes.length = 44) ∧
    ((writeWav exMono0).bytes.length = 44 ∧ headerLayoutSpec exMono0) := by
  constructor
  · intro b h
    have hdata : (dataBytes (channelsOf b) b.length 44).length = 0 := by
      rw [length_dataBytes, length_channelsOf]
      rcases h with h | h <;> simp [h]
    have hnil := List.length_eq_zero.mp hdata
    have hrep : b.length * b.numberOfChannels * 2 -
        (b.length - 44) * (2 * b.numberOfChannels) = 0 := by
      rcases h with h | h <;> simp [h]
    constructor
    · rw [writeWav_bytes_split, hnil, hrep]
      simp
    · rw [length_writeWav_bytes]
      rcases h with h | h <;> simp [h]
  · exact ⟨by rw [length_writeWav_bytes]; decide, headerLayout_of_bounds exMono0 (by decide)
      (by decide) (by decide) (by decide)⟩

/-- Witness for C7 at the concrete mono empty buffer. -/
theorem empty_buffer_header_only_witness :
    (writeWav exMono0).bytes = headerBytes exMono0 ∧ (writeWav exMono0).bytes.length = 44 :=
  empty_buffer_header_only.1 exMono0 (Or.inr rfl)

/-- C8: when every sample of every channel is `0.0`, every byte of the
data region (offset 44 onward) is zero. -/
theorem all_zero_samples_zero_data (b : AudioBuffer)
    (h : ∀ ch ∈ b.channelData, ∀ s ∈ ch, s = 0) :
    ∀ x ∈ (writeWav b).bytes.drop 44, x = 0 := by
  intro x hx
  rw [writeWav_bytes_drop] at hx
  rcases List.mem_append.mp hx with hx | hx
  · rw [dataBytes] at hx
    rcases List.mem_flatMap.mp hx with ⟨p, _, hxp⟩
    rw [frameBytes] at hxp
    rcases List.mem_flatMap.mp hxp with ⟨ch, hch, hxch⟩
    have hs : ch.getD p 0 = 0 := by
      have hch2 : ∃ a, a < b.numberOfChannels ∧ b.getChannelData a = ch := by
        simpa [channelsOf] using hch
      rcases hch2 with ⟨i, _, hieq⟩
      rw [← hieq, AudioBuffer.getChannelData]
      by_cases hlen : i < b.channelData.length
      · have hmem : b.channelData.getD i [] ∈ b.channelData := by
          rw [List.getD_eq_getElem _ _ hlen]
          exact List.getElem_mem hlen
        by_cases hp2 : p < (b.channelData.getD i []).length
        · have hsm : (b.channelData.getD i []).getD p 0 ∈ b.channelData.getD i [] := by
            rw [List.getD_eq_getElem _ _ hp2]
            exact List.getElem_mem hp2
          exact h _ hmem _ hsm
        · rw [List.getD_eq_default _ _ (le_of_not_lt hp2)]
      · rw [List.getD_eq_default _ _ (le_of_not_lt hlen)]
        simp
    rw [hs, encodeSample_zero, int16LE_zero] at hxch
    simpa using hxch
  · exact List.eq_of_mem_replicate hx

/-- Witness for C8 at a concrete 45-frame all-zero mono buffer: its data
region equals a run of zero bytes of its own length. -/
theorem all_zero_samples_zero_data_witness :
    (writeWav exZero45).bytes.drop 44 =
      List.replicate ((writeWav exZero45).bytes.drop 44).length 0 :=
  List.eq_replicate_of_mem (all_zero_samples_zero_data exZero45 (by
    intro ch hch s hs
    rw [show exZero45.channelData = [List.replicate 45 0] from rfl,
      List.mem_singleton] at hch
    rw [hch] at hs
    exact List.eq_of_mem_replicate hs))

/-- C9: the encoder is a deterministic, side-effect-free function of the
four fields of its input buffer — field-identical inputs give identical
output blobs. -/
theorem writeWav_deterministic (b₁ b₂ : AudioBuffer)
    (h1 : b₁.sampleRate = b₂.sampleRate) (h2 : b₁.numberOfChannels = b₂.numberOfChannels)
    (h3 : b₁.length = b₂.length) (h4 : b₁.channelData = b₂.channelData) :
    writeWav b₁ = writeWav b₂ := by
  cases b₁
  cases b₂
  dsimp only at h1 h2 h3 h4
  subst h1
  subst h2
  subst h3
  subst h4
  rfl

/-- Witness for C9 at a concrete buffer. -/
theorem writeWav_deterministic_witness : writeWav exMono0 = writeWav exMono0 :=
  writeWav_deterministic exMono0 exMono0 rfl rfl rfl rfl

/-- C10: the data loop's frame index starts at the cursor value 44 left
by the header writer, so buffers with at most 44 frames get an all-zero
data region regardless of their samples, and for longer buffers exactly
the frames 44 … frameCount-1 are encoded at the start of the data region
with the remaining `44 * channelCount * 2` data bytes left zero. -/
theorem data_loop_starts_at_cursor :
    (∀ b : AudioBuffer, b.length ≤ 44 → ∀ x ∈ (writeWav b).bytes.drop 44, x = 0) ∧
    (∀ b : AudioBuffer, 44 < b.length →
      (writeWav b).bytes.drop 44 =
        (List.range' 44 (b.length - 44)).flatMap (frameBytes (channelsOf b)) ++
          List.replicate (44 * (2 * b.numberOfChannels)) 0) := by
  constructor
  · intro b hb x hx
    rw [writeWav_bytes_drop] at hx
    have hd : dataBytes (channelsOf b) b.length 44 = [] := by
      rw [dataBytes, Nat.sub_eq_zero_of_le hb]
      rfl
    rw [hd, List.nil_append] at hx
    exact List.eq_of_mem_replicate hx
  · intro b hb
    rw [writeWav_bytes_drop, dataBytes]
    congr 1
    have h1 : (b.length - 44) * (2 * b.numberOfChannels) =
        b.length * (2 * b.numberOfChannels) - 44 * (2 * b.numberOfChannels) :=
      Nat.sub_mul _ _ _
    have h2 : b.length * (2 * b.numberOfChannels) = b.length * b.numberOfChannels * 2 := by
      ring
    have h3 : 44 * (2 * b.numberOfChannels) ≤ b.length * (2 * b.numberOfChannels) :=
      Nat.mul_le_mul (by omega) (Nat.le_refl _)
    rw [h2] at h3
    rw [h1, h2]
    congr 1
    omega

/-- Witness for C10: a 2-frame buffer keeps a zero data region, and a
45-frame buffer's data region starts with its single encoded frame 44. -/
theorem data_loop_starts_at_cursor_witness :
    (∀ x ∈ (writeWav exStereo2).bytes.drop 44, x = 0) ∧
    (writeWav exMono45).bytes.drop 44 =
      (List.range' 44 (exMono45.length - 44)).flatMap (frameBytes (channelsOf exMono45)) ++
        List.replicate (44 * (2 * exMono45.numberOfChannels)) 0 :=
  ⟨data_loop_starts_at_cursor.1 exStereo2 (by decide),
    data_loop_starts_at_cursor.2 exMono45 (by decide)⟩

end Paiyou
